import Mathlib

/-!
Shallow embedding of the download-task core of the request-tui repository
(src/app/task/resolve.rs, src/app/task/state.rs, src/app/task/result.rs,
src/app/listener.rs) and proofs about it.

Modelling conventions:
* u64 counters are Nat (the byte counters of this program never approach 2^64;
  the one subtraction that can underflow in the source is modelled explicitly
  as an Option, none standing for the debug-build panic).
* Instant is a Nat tick count in milliseconds; Duration comparison becomes Nat
  comparison.
* External effects (URL parser, HTTP client, filesystem, the byte stream, the
  oneshot command channel polls) are an explicit environment record; each field
  is the result the corresponding external call returns in one attempt.
* tokio oneshot result sends are recorded as events; Rust unwrap on a failed
  send is the event Ev.panic.
* PathBuf is String; the set of files already existing in the download
  directory is a List String of file names.
-/

namespace RequestTui

/-- Modelled from the spec: TaskCommand (Stop or Abort), sent at most once per
attempt over the command channel.  Its defining Rust file is not present under
src, only its uses in resolve.rs and listener.rs. -/
inductive TaskCommand
  | stop
  | abort
  deriving DecidableEq

/-- Terminal stage taxonomy, from src/app/task/result.rs. -/
inductive TaskFinalStage
  | UnknownUrl
  | FailToConnection
  | FailToCreateFile
  | FailToDownload
  | FailToWrite
  | FailToResumeFile
  | FileCorrupted
  | FailToResumeConnection
  | Interrupted
  | Abort
  | Finished
  | UnknownError
  deriving DecidableEq

/-- TaskResult, from src/app/task/result.rs: a terminal stage tag plus an
optional diagnostic message. -/
structure TaskResult where
  final_stage : TaskFinalStage
  message : Option String
  deriving DecidableEq

def TaskResult.new (final_stage : TaskFinalStage) (message : Option String) : TaskResult :=
  ⟨final_stage, message⟩

def TaskResult.new_unknown_url (message : String) : TaskResult :=
  TaskResult.new TaskFinalStage.UnknownUrl (some message)

def TaskResult.new_failed_to_connection (message : String) : TaskResult :=
  TaskResult.new TaskFinalStage.FailToConnection (some message)

def TaskResult.new_failed_to_create_file (message : String) : TaskResult :=
  TaskResult.new TaskFinalStage.FailToCreateFile (some message)

def TaskResult.new_failed_to_download (message : String) : TaskResult :=
  TaskResult.new TaskFinalStage.FailToDownload (some message)

def TaskResult.new_failed_to_write (message : String) : TaskResult :=
  TaskResult.new TaskFinalStage.FailToWrite (some message)

def TaskResult.new_failed_to_resume_file (message : String) : TaskResult :=
  TaskResult.new TaskFinalStage.FailToResumeFile (some message)

def TaskResult.new_file_corrupted (message : String) : TaskResult :=
  TaskResult.new TaskFinalStage.FileCorrupted (some message)

def TaskResult.new_failed_to_resume_connection (message : String) : TaskResult :=
  TaskResult.new TaskFinalStage.FailToResumeConnection (some message)

def TaskResult.new_interrupted : TaskResult :=
  TaskResult.new TaskFinalStage.Interrupted none

def TaskResult.new_abort : TaskResult :=
  TaskResult.new TaskFinalStage.Abort none

def TaskResult.new_finished : TaskResult :=
  TaskResult.new TaskFinalStage.Finished none

def TaskResult.new_unknown_error (message : String) : TaskResult :=
  TaskResult.new TaskFinalStage.UnknownError (some message)

def TaskResult.stage (r : TaskResult) : TaskFinalStage :=
  r.final_stage

/-- TaskState, from src/app/task/state.rs: the shared, mutex-guarded snapshot
of one download task. -/
structure TaskState where
  filepath : String
  url : Option String
  accept_ranges : Bool
  content_length : Option Nat
  downloaded : Nat
  last_updated : Nat
  last_downloaded : Nat
  last_speed : Option Nat
  deriving DecidableEq

/-- TaskState.new, from src/app/task/state.rs; now is the Instant the
constructor observes. -/
def TaskState.new (now : Nat) : TaskState where
  filepath := ""
  url := none
  accept_ranges := false
  content_length := none
  downloaded := 0
  last_updated := now
  last_downloaded := 0
  last_speed := none

/-- REFRESH_INTERVAL of 500 milliseconds, from src/app/task/state.rs. -/
def REFRESH_INTERVAL : Nat := 500

/-- TaskState.ui_update, from src/app/task/state.rs.  The source computes
downloaded - last_downloaded on u64, which panics (debug) on underflow: that
case is the none result.  The f64 speed computation is abstracted by the
function argument speedOf applied to the byte delta and the elapsed time. -/
def TaskState.ui_update (s : TaskState) (now : Nat) (speedOf : Nat → Nat → Nat) :
    Option TaskState :=
  let elapsed := now - s.last_updated
  if REFRESH_INTERVAL ≤ elapsed then
    if s.last_downloaded ≤ s.downloaded then
      let downloaded_since_last := s.downloaded - s.last_downloaded
      some { s with
        last_speed := some (speedOf downloaded_since_last elapsed)
        last_updated := now
        last_downloaded := s.downloaded }
    else none
  else some s

/-- FinishState, from src/window/app/finish.rs. -/
inductive FinishState
  | Success
  | Failure
  deriving DecidableEq

/-- FinishedTask, from src/window/app/finish.rs (the data fields; rendering is
out of scope). -/
structure FinishedTask where
  state : FinishState
  filepath : String
  url : Option String
  content_length : Option Nat
  downloaded : Nat
  deriving DecidableEq

/-- State of the result oneshot channel as seen by the listener: a value is
ready, the sender is still alive with no value yet, or the channel is closed
without a value. -/
inductive ChanState
  | hasValue (r : TaskResult)
  | empty
  | closed
  deriving DecidableEq

/-- TaskListener, from src/app/listener.rs.  command_sender is true when the
Option holding the command oneshot sender is still Some. -/
structure TaskListener where
  state : TaskState
  result_chan : ChanState
  command_sender : Bool
  task_result : Option TaskResult
  processed : Bool
  stopped : Bool
  deriving DecidableEq

/-- TaskListener.into_finished_task, from src/app/listener.rs lines 47-78.
Returns the FinishedTask and the listener after the mutation
(processed set to true). -/
def TaskListener.into_finished_task (self : TaskListener) : FinishedTask × TaskListener :=
  let self' := { self with processed := true }
  let finish_state :=
    match self.task_result with
    | none => FinishState.Failure
    | some r =>
      match r.stage with
      | TaskFinalStage.Finished => FinishState.Success
      | _ => FinishState.Failure
  let cloned_state := self.state
  let content_length :=
    match self.task_result with
    | some result =>
      match result.final_stage with
      | TaskFinalStage.Finished =>
        cloned_state.content_length.orElse (fun _ => some cloned_state.downloaded)
      | _ => cloned_state.content_length
    | none => cloned_state.content_length
  (⟨finish_state, cloned_state.filepath, cloned_state.url,
    content_length, cloned_state.downloaded⟩, self')

/-- TaskListener.try_receive, from src/app/listener.rs lines 105-124.  Returns
the value returned to the caller and the listener after the call.  Receiving
the value from a oneshot channel leaves it closed for later polls. -/
def TaskListener.try_receive (self : TaskListener) : Option TaskResult × TaskListener :=
  if self.task_result.isSome || self.processed || self.stopped then
    (self.task_result, self)
  else
    match self.result_chan with
    | ChanState.hasValue r =>
      let self' := { self with task_result := some r, result_chan := ChanState.closed }
      (self'.task_result, self')
    | ChanState.empty => (self.task_result, self)
    | ChanState.closed =>
      let r := TaskResult.new_unknown_error "Task result channel closed unexpectedly"
      let self' := { self with task_result := some r }
      (self'.task_result, self')

/-- TaskListener.send_command, from src/app/listener.rs lines 126-134.  The
source first takes the command sender out of its Option, then sends only when
it was present and the listener is not stopped; the take happens in every
case.  Returns the command actually handed to the channel, if any, and the
listener after the call. -/
def TaskListener.send_command (self : TaskListener) (command : TaskCommand) :
    Option TaskCommand × TaskListener :=
  let sender := self.command_sender
  let self' := { self with command_sender := false }
  if sender && !self.stopped then (some command, self') else (none, self')

/-- Folding send_command over a list of commands; first component collects the
commands actually delivered to the channel, in order. -/
def TaskListener.sendSeq (self : TaskListener) :
    List TaskCommand → List TaskCommand × TaskListener
  | [] => ([], self)
  | c :: cs =>
    let p := self.send_command c
    let q := p.2.sendSeq cs
    (p.1.toList ++ q.1, q.2)

/-! ## Resolver embedding (src/app/task/resolve.rs) -/

/-- One item yielded by the response byte stream: a chunk (only its length
matters to the state machine) or a network error. -/
inductive StreamItem
  | ok (len : Nat)
  | err (msg : String)
  deriving DecidableEq

/-- Result of one non-blocking poll of the command oneshot channel. -/
inductive TryRecvR
  | ok (c : TaskCommand)
  | empty
  | closed
  deriving DecidableEq

/-- Observable events of one resolver attempt, in chronological order.
request is a client.get send, with the value of the Range header when one was
attached; streamStart records the length of the prepared local file when
streaming begins; sendRes is one send on the result oneshot channel, with
delivered false when the receiving half was already dropped; panic is a Rust
panic (an unwrap of a failed send). -/
inductive Ev
  | request (range : Option String)
  | streamStart (fileLen : Nat)
  | flushOk
  | flushErr (msg : String)
  | sendRes (stage : TaskFinalStage) (delivered : Bool)
  | panic
  deriving DecidableEq

/-- reporter.send(r).unwrap(): delivered when the receiver is alive, otherwise
the unwrap panics. -/
def sendUnwrap (alive : Bool) (r : TaskResult) : List Ev :=
  if alive then [Ev.sendRes r.final_stage true] else [Ev.sendRes r.final_stage false, Ev.panic]

/-- let _ = reporter.send(r): the send failure is ignored (resolve.rs lines
263-270). -/
def sendIgnore (alive : Bool) (r : TaskResult) : List Ev :=
  [Ev.sendRes r.final_stage alive]

/-- url::ParseError, split into the one variant the source inspects and all
others. -/
inductive UrlParseError
  | relativeUrlWithoutBase
  | other (msg : String)

def UrlParseError.toMessage : UrlParseError → String
  | UrlParseError.relativeUrlWithoutBase => "relative URL without a base"
  | UrlParseError.other m => m

/-- The header data of an HTTP response the resolver inspects: the parsed
Content-Length value when the header is present and parses as u64 (parse
accepts any value up to 2 ^ 64 - 1), the raw Accept-Ranges header value, and
the final (possibly redirected) URL. -/
structure HttpResponse where
  content_length : Option Nat
  accept_ranges_header : Option String
  url : String

/-- External environment of one resolver attempt: the result each external
call returns.  writes and cmds are indexed by the chunk iteration at which
the call happens. -/
structure Env where
  parse : String → Except UrlParseError String
  segments : String → Option (List String)
  downloadDir : String
  dirFiles : List String
  clientBuild : Except String Unit
  connect : Except String HttpResponse
  createFile : Option String
  openTrunc : Option String
  openAppend : Option String
  metaLen : Except String Nat
  setLen : Option String
  stream : List StreamItem
  writes : Nat → Option String
  cmds : Nat → TryRecvR
  flushRes : Option String
  alive : Bool
  now : Nat

/-- str::eq_ignore_ascii_case, as used on the Accept-Ranges header value. -/
def eqIgnoreAsciiCase (a b : String) : Bool :=
  a.data.map Char.toLower == b.data.map Char.toLower

/-- Splits a list of characters at its last dot: returns the parts before and
after that dot, or none when no dot occurs. -/
def splitAtLastDot : List Char → Option (List Char × List Char)
  | [] => none
  | c :: cs =>
    match splitAtLastDot cs with
    | some (b, a) => some (c :: b, a)
    | none => if c = '.' then some ([], cs) else none

/-- Path::file_stem and Path::extension applied to a plain file name: the
whole name with no extension when there is no dot, or when the only dot is the
leading character; otherwise the parts before and after the last dot. -/
def splitFilename (name : String) : String × Option String :=
  match splitAtLastDot name.data with
  | none => (name, none)
  | some ([], _) => (name, none)
  | some (b, a) => (⟨b⟩, some ⟨a⟩)

/-- Decimal digits of n, most significant first, with explicit fuel so the
definition is structural; fuel above n is enough. -/
def decCharsAux : Nat → Nat → List Char
  | 0, _ => []
  | fuel + 1, n =>
    if n < 10 then [Nat.digitChar n]
    else decCharsAux fuel (n / 10) ++ [Nat.digitChar (n % 10)]

/-- Decimal rendering of a u64, as produced by the Display formatting the
source feeds into format strings. -/
def decimalStr (n : Nat) : String :=
  ⟨decCharsAux (n + 1) n⟩

/-- The candidate file name the collision loop tries at a given count:
format string stem(count).ext, or stem(count) when there is no extension
(resolve.rs lines 128-133). -/
def candidateName (stem : String) (ext : Option String) (count : Nat) : String :=
  match ext with
  | some e => stem ++ "(" ++ decimalStr count ++ ")." ++ e
  | none => stem ++ "(" ++ decimalStr count ++ ")"

/-- The probing loop of get_filename_no_duplicate, with fuel standing for the
unbounded Rust loop; it terminates at the first count whose candidate is not
an existing file. -/
def probeFilename (dir : List String) (stem : String) (ext : Option String) :
    Nat → Nat → Option String
  | _, 0 => none
  | count, fuel + 1 =>
    let new_filename := candidateName stem ext count
    if new_filename ∈ dir then probeFilename dir stem ext (count + 1) fuel
    else some new_filename

/-- get_filename_no_duplicate, from resolve.rs lines 111-140.  dir is the set
of file names existing in the download directory.  The fuel dir.length + 1 is
proved sufficient below (probeFilename_total), matching the termination of
the Rust loop on a finite directory. -/
def get_filename_no_duplicate (dir : List String) (filename : String) : Option String :=
  if filename ∈ dir then
    let stem := (splitFilename filename).1
    let ext := (splitFilename filename).2
    probeFilename dir stem ext 1 (dir.length + 1)
  else some filename

/-- get_proper_url, from resolve.rs lines 91-106. -/
def get_proper_url (parse : String → Except UrlParseError String) (url_str : String) :
    Except String String :=
  match parse url_str with
  | Except.ok url => Except.ok url
  | Except.error e =>
    match e with
    | UrlParseError.relativeUrlWithoutBase =>
      match parse ("http://" ++ url_str) with
      | Except.ok url => Except.ok url
      | Except.error e2 => Except.error ("Failed to parse URL: " ++ e2.toMessage)
    | UrlParseError.other m => Except.error ("Failed to parse URL: " ++ m)

/-- The last path segment of a URL when it is nonempty, as computed by the
path_segments chains in get_download_head. -/
def lastSegment (segs : Option (List String)) : Option String :=
  match segs with
  | none => none
  | some l =>
    match l.getLast? with
    | none => none
    | some s => if s = "" then none else some s

/-- get_download_head, from resolve.rs lines 142-191: issue the GET, read
Content-Length and Accept-Ranges, derive the destination file name, and write
the header metadata into the shared state under the lock.  Returns the events
and either the connection error or the mutated state. -/
def get_download_head (env : Env) (s : TaskState) (url : String) :
    List Ev × Except String TaskState :=
  match env.connect with
  | Except.error e => ([Ev.request none], Except.error e)
  | Except.ok resp =>
    let content_length := resp.content_length
    let accept_ranges :=
      Option.any (fun v => eqIgnoreAsciiCase v "bytes") resp.accept_ranges_header
    let fname :=
      ((lastSegment (env.segments url)).orElse
        (fun _ => lastSegment (env.segments resp.url))).getD "tmp.bin"
    let dest := env.downloadDir ++ "/" ++
      ((get_filename_no_duplicate env.dirFiles fname).getD fname)
    ([Ev.request none],
      Except.ok { s with
        content_length := content_length
        accept_ranges := accept_ranges
        filepath := dest
        url := some resp.url })

/-- Output of one run of the chunk-streaming loop: its events, the shared
state snapshot after each mutation, the final shared state, and whether the
loop handed the SignalHandler back to the caller (stream exhausted and flush
succeeded, so the caller still has to send Finished). -/
structure LoopOut where
  events : List Ev
  states : List TaskState
  state : TaskState
  handlerReturned : Bool

/-- download_stream_to_file, from resolve.rs lines 218-278, together with
flush_file_buffer (lines 203-216) which it calls.  The loop walks the stream
items; per chunk it models the write, the downloaded increment under the
lock, and the non-blocking command poll. -/
def download_stream_to_file (alive : Bool) (flushRes : Option String)
    (writes : Nat → Option String) (cmds : Nat → TryRecvR) :
    List StreamItem → Nat → TaskState → LoopOut
  | [], _, s =>
    match flushRes with
    | none => ⟨[Ev.flushOk], [], s, true⟩
    | some e => ⟨Ev.flushErr e :: sendUnwrap alive (TaskResult.new_failed_to_write e), [], s, false⟩
  | StreamItem.err e :: _, _, s =>
    ⟨sendUnwrap alive (TaskResult.new_failed_to_download e), [], s, false⟩
  | StreamItem.ok len :: rest, i, s =>
    match writes i with
    | some e => ⟨sendUnwrap alive (TaskResult.new_failed_to_write e), [], s, false⟩
    | none =>
      let s' := { s with downloaded := s.downloaded + len }
      match cmds i with
      | TryRecvR.ok TaskCommand.stop =>
        match flushRes with
        | none => ⟨Ev.flushOk :: sendUnwrap alive TaskResult.new_interrupted, [s'], s', false⟩
        | some e =>
          ⟨Ev.flushErr e :: sendUnwrap alive (TaskResult.new_failed_to_write e), [s'], s', false⟩
      | TryRecvR.ok TaskCommand.abort =>
        match flushRes with
        | none => ⟨Ev.flushOk :: sendUnwrap alive TaskResult.new_abort, [s'], s', false⟩
        | some e =>
          ⟨Ev.flushErr e :: sendUnwrap alive (TaskResult.new_failed_to_write e), [s'], s', false⟩
      | TryRecvR.closed =>
        ⟨sendIgnore alive (TaskResult.new_unknown_error "Command channel closed unexpectedly"),
          [s'], s', false⟩
      | TryRecvR.empty =>
        let o := download_stream_to_file alive flushRes writes cmds rest (i + 1) s'
        ⟨o.events, s' :: o.states, o.state, o.handlerReturned⟩

/-- Output of one whole attempt: events, shared-state snapshots after each
mutation, and the final shared state. -/
structure AttemptOut where
  events : List Ev
  states : List TaskState
  state : TaskState

/-- handle_normal_download, from resolve.rs lines 33-89. -/
def handle_normal_download (env : Env) (s0 : TaskState) (url_str : String) : AttemptOut :=
  match get_proper_url env.parse url_str with
  | Except.error e => ⟨sendUnwrap env.alive (TaskResult.new_unknown_url e), [], s0⟩
  | Except.ok url =>
    match env.clientBuild with
    | Except.error e => ⟨sendUnwrap env.alive (TaskResult.new_failed_to_connection e), [], s0⟩
    | Except.ok _ =>
      match get_download_head env s0 url with
      | (evs, Except.error e) =>
        ⟨evs ++ sendUnwrap env.alive (TaskResult.new_failed_to_connection e), [], s0⟩
      | (evs, Except.ok s1) =>
        match env.createFile with
        | some e =>
          ⟨evs ++ sendUnwrap env.alive (TaskResult.new_failed_to_create_file e), [s1], s1⟩
        | none =>
          let o := download_stream_to_file env.alive env.flushRes env.writes env.cmds
            env.stream 0 s1
          if o.handlerReturned then
            ⟨evs ++ Ev.streamStart 0 :: o.events ++ sendUnwrap env.alive TaskResult.new_finished,
              s1 :: o.states, o.state⟩
          else
            ⟨evs ++ Ev.streamStart 0 :: o.events, s1 :: o.states, o.state⟩

/-- resume_file, from resolve.rs lines 280-320.  The local file is modelled by
its length; ok carries the length of the prepared file handed to the writer. -/
def resume_file (env : Env) (downloaded : Nat) (accept_range : Bool) :
    Except TaskResult Nat :=
  if !accept_range then
    match env.openTrunc with
    | some e => Except.error (TaskResult.new_failed_to_resume_file e)
    | none => Except.ok 0
  else
    match env.openAppend with
    | some e => Except.error (TaskResult.new_failed_to_resume_file e)
    | none =>
      match env.metaLen with
      | Except.error e => Except.error (TaskResult.new_failed_to_resume_file e)
      | Except.ok len =>
        if len < downloaded then
          Except.error (TaskResult.new_file_corrupted
            "File changed or failed to write since last download attempt")
        else
          match env.setLen with
          | some e => Except.error (TaskResult.new_failed_to_resume_file e)
          | none => Except.ok downloaded

/-- get_resume_download_stream, from resolve.rs lines 384-439.  Returns the
events, and on success the state after the header lock block together with
the snapshots that block wrote.  The source computes len + downloaded on u64
(line 410): that addition wraps modulo 2 ^ 64 (release semantics; a debug
build panics at the same inputs), so the model takes the sum mod 2 ^ 64. -/
def get_resume_download_stream (env : Env) (s : TaskState) (downloaded : Nat)
    (accept_range : Bool) : List Ev × Except String (TaskState × List TaskState) :=
  if accept_range then
    let ev := [Ev.request (some ("bytes=" ++ decimalStr downloaded ++ "-"))]
    match env.connect with
    | Except.error e => (ev, Except.error e)
    | Except.ok resp =>
      match resp.content_length with
      | some len =>
        let s' := { s with content_length := some ((len + downloaded) % 2 ^ 64) }
        (ev, Except.ok (s', [s']))
      | none => (ev, Except.ok (s, []))
  else
    match env.connect with
    | Except.error e => ([Ev.request none], Except.error e)
    | Except.ok resp =>
      let accept_ranges :=
        Option.any (fun v => eqIgnoreAsciiCase v "bytes") resp.accept_ranges_header
      let s' := { s with
        content_length := resp.content_length
        accept_ranges := accept_ranges }
      ([Ev.request none], Except.ok (s', [s']))

/-- handle_resume_download, from resolve.rs lines 322-382.  The unwrap of the
stored URL panics when it was never recorded. -/
def handle_resume_download (env : Env) (s0 : TaskState) : AttemptOut :=
  match s0.url with
  | none => ⟨[Ev.panic], [], s0⟩
  | some _url =>
    let accept_range := s0.accept_ranges
    let downloaded := if accept_range then s0.downloaded else 0
    let s1 := { s0 with
      downloaded := downloaded
      last_updated := env.now
      last_downloaded := downloaded
      last_speed := none }
    let s2 := if accept_range then s1 else { s1 with downloaded := 0 }
    let preStates := if accept_range then [s1] else [s1, s2]
    match resume_file env downloaded accept_range with
    | Except.error tr => ⟨sendUnwrap env.alive tr, preStates, s2⟩
    | Except.ok fileLen =>
      match env.clientBuild with
      | Except.error e =>
        ⟨sendUnwrap env.alive (TaskResult.new_failed_to_resume_connection e), preStates, s2⟩
      | Except.ok _ =>
        match get_resume_download_stream env s2 downloaded accept_range with
        | (evs, Except.error e) =>
          ⟨evs ++ sendUnwrap env.alive (TaskResult.new_failed_to_resume_connection e),
            preStates, s2⟩
        | (evs, Except.ok (s3, headStates)) =>
          let o := download_stream_to_file env.alive env.flushRes env.writes env.cmds
            env.stream 0 s3
          if o.handlerReturned then
            ⟨evs ++ Ev.streamStart fileLen :: o.events ++
                sendUnwrap env.alive TaskResult.new_finished,
              preStates ++ headStates ++ o.states, o.state⟩
          else
            ⟨evs ++ Ev.streamStart fileLen :: o.events,
              preStates ++ headStates ++ o.states, o.state⟩

/-- DownloadRequest, from src/app/sender.rs. -/
inductive DownloadRequest
  | Normal (url : String)
  | Resume

/-- handle_task, from resolve.rs lines 22-31. -/
def handle_task (env : Env) (s0 : TaskState) (req : DownloadRequest) : AttemptOut :=
  match req with
  | DownloadRequest.Normal url => handle_normal_download env s0 url
  | DownloadRequest.Resume => handle_resume_download env s0

/-! ## Observation predicates over attempt traces -/

/-- The stages of the results sent on the result channel, in order. -/
def sentStages (evs : List Ev) : List TaskFinalStage :=
  evs.filterMap fun e =>
    match e with
    | Ev.sendRes st _ => some st
    | _ => none

/-- Every result send on the trace was actually delivered. -/
def allDelivered (evs : List Ev) : Bool :=
  evs.all fun e =>
    match e with
    | Ev.sendRes _ d => d
    | _ => true

/-- The three terminal outcomes whose result must come after a successful
flush. -/
def isTerminal3 : TaskFinalStage → Bool
  | TaskFinalStage.Finished => true
  | TaskFinalStage.Interrupted => true
  | TaskFinalStage.Abort => true
  | _ => false

/-- Scans the trace left to right: every Finished, Interrupted or Abort
result send must be preceded by a successful flush.  seen records whether a
flushOk has already occurred. -/
def flushBeforeOk (seen : Bool) : List Ev → Bool
  | [] => true
  | Ev.flushOk :: rest => flushBeforeOk true rest
  | Ev.sendRes st _ :: rest => (!isTerminal3 st || seen) && flushBeforeOk seen rest
  | _ :: rest => flushBeforeOk seen rest

/-- The downloaded counter over time: its initial value, then its value after
each mutation of the shared state. -/
def downloadedTrace (s0 : TaskState) (o : AttemptOut) : List Nat :=
  s0.downloaded :: o.states.map fun s => s.downloaded

/-- The fields of the shared state the streaming loop never touches, plus
monotonicity of downloaded. -/
def loopPreserves (s t : TaskState) : Prop :=
  t.filepath = s.filepath ∧ t.url = s.url ∧ t.accept_ranges = s.accept_ranges ∧
  t.content_length = s.content_length ∧ t.last_updated = s.last_updated ∧
  t.last_downloaded = s.last_downloaded ∧ t.last_speed = s.last_speed ∧
  s.downloaded ≤ t.downloaded

/-- Events that are neither flushes nor result sends nor panics: issuing a
request and starting to stream. -/
def isNeutral : Ev → Bool
  | Ev.request _ => true
  | Ev.streamStart _ => true
  | _ => false

/-- The delivery contract of one terminal tail of an attempt trace: exactly
one result send, of the given stage; flush ordering respected; everything
delivered exactly when the receiver is alive; and a panic exactly when the
receiver is gone and the send is not the ignored command-channel-closed
UnknownError send. -/
def TailSpec (alive : Bool) (st : TaskFinalStage) (evs : List Ev) : Prop :=
  sentStages evs = [st] ∧ flushBeforeOk false evs = true ∧ allDelivered evs = alive ∧
  ((Ev.panic ∈ evs) ↔ (alive = false ∧ st ≠ TaskFinalStage.UnknownError))

/-- The possible shapes of the event trace of one run of the streaming loop. -/
def LoopShape (alive : Bool) (o : LoopOut) : Prop :=
  (o.handlerReturned = true ∧ o.events = [Ev.flushOk]) ∨
  (o.handlerReturned = false ∧
    ((∃ m, o.events = sendUnwrap alive (TaskResult.new_failed_to_download m)) ∨
     (∃ m, o.events = sendUnwrap alive (TaskResult.new_failed_to_write m)) ∨
     (∃ m, o.events = Ev.flushErr m :: sendUnwrap alive (TaskResult.new_failed_to_write m)) ∨
     (o.events = Ev.flushOk :: sendUnwrap alive TaskResult.new_interrupted) ∨
     (o.events = Ev.flushOk :: sendUnwrap alive TaskResult.new_abort) ∨
     (o.events =
       sendIgnore alive (TaskResult.new_unknown_error "Command channel closed unexpectedly"))))

/-- The invariant that makes the u64 subtraction inside ui_update safe. -/
def speedInv (s : TaskState) : Prop :=
  s.last_downloaded ≤ s.downloaded

/-! ## Listener claims -/

/-- Claim C5 (amended): for every listener whose cached result has stage
Finished, into_finished_task yields an entry whose reported content length
equals the state content_length when that is known, and is backfilled to the
state downloaded count when it is unknown, so every successful entry reports
a definite size.  (The claim that a known content_length also equals
downloaded is refuted by the counterexample below.) -/
theorem into_finished_task_backfills (l : TaskListener) (r : TaskResult)
    (hres : l.task_result = some r) (hst : r.final_stage = TaskFinalStage.Finished) :
    (l.into_finished_task).1.content_length =
      some (l.state.content_length.getD l.state.downloaded) ∧
    (l.into_finished_task).1.content_length.isSome = true ∧
    (l.into_finished_task).1.state = FinishState.Success ∧
    (l.into_finished_task).1.downloaded = l.state.downloaded ∧
    (l.into_finished_task).2.processed = true := by
  cases l with
  | mk state chan cs res proc stop =>
    cases hres
    simp only [TaskListener.into_finished_task, TaskResult.stage, hst]
    cases state.content_length <;> simp [Option.orElse]

/-- Witness for into_finished_task_backfills at a concrete listener with
unknown content length and 7 downloaded bytes. -/
theorem into_finished_task_backfills_witness :
    (TaskListener.into_finished_task
      ⟨⟨"f", some "u", false, none, 7, 0, 0, none⟩, ChanState.closed, false,
        some TaskResult.new_finished, false, false⟩).1.content_length = some 7 :=
  (into_finished_task_backfills
    ⟨⟨"f", some "u", false, none, 7, 0, 0, none⟩, ChanState.closed, false,
      some TaskResult.new_finished, false, false⟩
    TaskResult.new_finished rfl rfl).1

/-- Counterexample to claim C5 as stated: a listener whose cached result is
Finished while the state records content_length 10 and downloaded 5 yields an
entry whose content length is 10, not the downloaded count 5; nothing in
into_finished_task forces the two to agree. -/
theorem into_finished_task_finished_length_mismatch :
    (TaskListener.into_finished_task
      ⟨⟨"f", some "u", true, some 10, 5, 0, 5, none⟩, ChanState.closed, false,
        some TaskResult.new_finished, false, false⟩).1.content_length = some 10 ∧
    (⟨⟨"f", some "u", true, some 10, 5, 0, 5, none⟩, ChanState.closed, false,
        some TaskResult.new_finished, false, false⟩ : TaskListener).state.downloaded = 5 ∧
    (TaskListener.into_finished_task
      ⟨⟨"f", some "u", true, some 10, 5, 0, 5, none⟩, ChanState.closed, false,
        some TaskResult.new_finished, false, false⟩).1.content_length ≠ some 5 := by
  decide

/-- sendSeq delivers nothing once the command endpoint is gone. -/
theorem sendSeq_of_no_sender (l : TaskListener) (h : l.command_sender = false) :
    ∀ cmds : List TaskCommand, (l.sendSeq cmds).1 = [] := by
  intro cmds
  induction cmds generalizing l with
  | nil => rfl
  | cons c cs ih =>
    have hsc : l.send_command c = (none, { l with command_sender := false }) := by
      simp [TaskListener.send_command, h]
    simp only [TaskListener.sendSeq, hsc]
    simpa using ih { l with command_sender := false } rfl

/-- Claim C6 (amended): send_command delivers a command at most once per
command endpoint (across any sequence of calls), and when the listener is
stopped, or the endpoint was already consumed, nothing is delivered; the call
always consumes the command endpoint, even when the listener is stopped. -/
theorem send_command_consumes_endpoint (l : TaskListener) (cmd : TaskCommand) :
    (l.send_command cmd).2.command_sender = false ∧
    (l.stopped = true → (l.send_command cmd).1 = none ∧
      (l.send_command cmd).2 = { l with command_sender := false }) ∧
    (l.command_sender = false → (l.send_command cmd).1 = none) ∧
    (∀ cmds : List TaskCommand, (l.sendSeq cmds).1.length ≤ 1) := by
  refine ⟨?_, ?_, ?_, ?_⟩
  · simp only [TaskListener.send_command]
    split <;> rfl
  · intro hst
    simp [TaskListener.send_command, hst]
  · intro hcs
    simp [TaskListener.send_command, hcs]
  · intro cmds
    cases cmds with
    | nil => simp [TaskListener.sendSeq]
    | cons c cs =>
      simp only [TaskListener.sendSeq]
      have htail : ((l.send_command c).2.sendSeq cs).1 = [] := by
        apply sendSeq_of_no_sender
        simp only [TaskListener.send_command]
        split <;> rfl
      rw [htail]
      simp only [List.append_nil, List.length_append]
      cases (l.send_command c).1 <;> simp [Option.toList]

/-- Witness for send_command_consumes_endpoint at a concrete stopped listener
that still holds its command endpoint. -/
theorem send_command_consumes_endpoint_witness :
    (TaskListener.send_command
      ⟨⟨"f", none, false, none, 0, 0, 0, none⟩, ChanState.empty, true,
        none, false, true⟩ TaskCommand.stop).1 = none :=
  ((send_command_consumes_endpoint
    ⟨⟨"f", none, false, none, 0, 0, 0, none⟩, ChanState.empty, true,
      none, false, true⟩ TaskCommand.stop).2.1 rfl).1

/-- Counterexample to claim C6 as stated: on a stopped listener that still
holds its command endpoint, send_command delivers nothing but is not a no-op:
the endpoint is taken and dropped, so the listener state changes. -/
theorem send_command_stopped_not_noop :
    (TaskListener.send_command
      ⟨⟨"f", none, false, none, 0, 0, 0, none⟩, ChanState.empty, true,
        none, false, true⟩ TaskCommand.stop).1 = none ∧
    (TaskListener.send_command
      ⟨⟨"f", none, false, none, 0, 0, 0, none⟩, ChanState.empty, true,
        none, false, true⟩ TaskCommand.stop).2.command_sender = false ∧
    (TaskListener.send_command
      ⟨⟨"f", none, false, none, 0, 0, 0, none⟩, ChanState.empty, true,
        none, false, true⟩ TaskCommand.stop).2
      ≠ ⟨⟨"f", none, false, none, 0, 0, 0, none⟩, ChanState.empty, true,
        none, false, true⟩ := by
  decide

/-- Claim C8: once try_receive has cached a result, every later call returns
that identical cached result and leaves the listener, including its channel,
unchanged; and when the channel is closed with no value while nothing is
cached and the listener is neither processed nor stopped, try_receive caches
a synthesized UnknownError, after which polling returns it forever. -/
theorem try_receive_caches_result (l : TaskListener) :
    (∀ r, l.task_result = some r → l.try_receive = (some r, l)) ∧
    (l.task_result = none → l.processed = false → l.stopped = false →
      l.result_chan = ChanState.closed →
      (l.try_receive).1 =
        some (TaskResult.new_unknown_error "Task result channel closed unexpectedly") ∧
      (l.try_receive).2.task_result = (l.try_receive).1 ∧
      (l.try_receive).2.try_receive = ((l.try_receive).1, (l.try_receive).2)) := by
  constructor
  · intro r h
    simp [TaskListener.try_receive, h]
  · intro h1 h2 h3 h4
    simp [TaskListener.try_receive, h1, h2, h3, h4]

/-- Witness for try_receive_caches_result: a listener with a cached Finished
result returns it unchanged. -/
theorem try_receive_caches_result_witness :
    TaskListener.try_receive
      ⟨⟨"f", none, false, none, 0, 0, 0, none⟩, ChanState.closed, false,
        some TaskResult.new_finished, false, false⟩ =
      (some TaskResult.new_finished,
        ⟨⟨"f", none, false, none, 0, 0, 0, none⟩, ChanState.closed, false,
          some TaskResult.new_finished, false, false⟩) :=
  (try_receive_caches_result
    ⟨⟨"f", none, false, none, 0, 0, 0, none⟩, ChanState.closed, false,
      some TaskResult.new_finished, false, false⟩).1 TaskResult.new_finished rfl

/-! ## Filename collision resolution (claim C9) -/

theorem digitChar_inj_lt {a b : Nat} (ha : a < 10) (hb : b < 10)
    (h : Nat.digitChar a = Nat.digitChar b) : a = b := by
  interval_cases a <;> interval_cases b <;> revert h <;> decide

theorem decCharsAux_ne_nil {fuel n : Nat} (h : 0 < fuel) : decCharsAux fuel n ≠ [] := by
  cases fuel with
  | zero => omega
  | succ f =>
    simp only [decCharsAux]
    split <;> simp

theorem decCharsAux_congr : ∀ f g n : Nat, n < f → n < g →
    decCharsAux f n = decCharsAux g n := by
  intro f
  induction f with
  | zero => intro g n h _; omega
  | succ f ih =>
    intro g n hf hg
    cases g with
    | zero => omega
    | succ g =>
      simp only [decCharsAux]
      split
      · rfl
      · have h10 : 10 ≤ n := by omega
        have hlt : n / 10 < n := Nat.div_lt_self (by omega) (by omega)
        rw [ih g (n / 10) (by omega) (by omega)]

theorem decCharsAux_inj : ∀ f a b : Nat, a < f → b < f →
    decCharsAux f a = decCharsAux f b → a = b := by
  intro f
  induction f with
  | zero => intro a b ha _ _; omega
  | succ f ih =>
    intro a b ha hb h
    simp only [decCharsAux] at h
    by_cases h1 : a < 10 <;> by_cases h2 : b < 10
    · simp only [if_pos h1, if_pos h2, List.cons.injEq] at h
      exact digitChar_inj_lt h1 h2 h.1
    · exfalso
      simp only [if_pos h1, if_neg h2] at h
      have hlen := congrArg List.length h
      simp only [List.length_cons, List.length_nil, List.length_append] at hlen
      have hne : decCharsAux f (b / 10) ≠ [] := decCharsAux_ne_nil (by omega)
      cases hd : decCharsAux f (b / 10) with
      | nil => exact hne hd
      | cons x xs => rw [hd] at hlen; simp at hlen
    · exfalso
      simp only [if_neg h1, if_pos h2] at h
      have hlen := congrArg List.length h
      simp only [List.length_cons, List.length_nil, List.length_append] at hlen
      have hne : decCharsAux f (a / 10) ≠ [] := decCharsAux_ne_nil (by omega)
      cases hd : decCharsAux f (a / 10) with
      | nil => exact hne hd
      | cons x xs => rw [hd] at hlen; simp at hlen
    · simp only [if_neg h1, if_neg h2] at h
      have hlen := congrArg List.length h
      simp only [List.length_append, List.length_cons, List.length_nil] at hlen
      obtain ⟨hpre, hdig⟩ := List.append_inj h (by omega)
      have hmod : a % 10 = b % 10 := by
        refine digitChar_inj_lt (Nat.mod_lt _ (by omega)) (Nat.mod_lt _ (by omega)) ?_
        simpa using hdig
      have hdiva : a / 10 < f := by
        have := @Nat.div_lt_self a 10 (by omega) (by omega)
        omega
      have hdivb : b / 10 < f := by
        have := @Nat.div_lt_self b 10 (by omega) (by omega)
        omega
      have hdiv : a / 10 = b / 10 := ih (a / 10) (b / 10) hdiva hdivb hpre
      have hada := Nat.div_add_mod a 10
      have hadb := Nat.div_add_mod b 10
      omega

theorem decimalStr_injective : Function.Injective decimalStr := by
  intro a b h
  have hd : decCharsAux (a + 1) a = decCharsAux (b + 1) b := congrArg String.data h
  rw [decCharsAux_congr (a + 1) (max a b + 1) a (by omega) (by omega),
    decCharsAux_congr (b + 1) (max a b + 1) b (by omega) (by omega)] at hd
  exact decCharsAux_inj (max a b + 1) a b (by omega) (by omega) hd

theorem candidateName_inj (stem : String) (ext : Option String) :
    Function.Injective (candidateName stem ext) := by
  intro a b h
  apply decimalStr_injective
  cases ext with
  | none =>
    have hd := congrArg String.data h
    simp only [candidateName, String.data_append] at hd
    have h1 := List.append_cancel_right hd
    have h2 := List.append_cancel_left h1
    exact congrArg String.mk h2
  | some e =>
    have hd := congrArg String.data h
    simp only [candidateName, String.data_append] at hd
    have h1 := List.append_cancel_right hd
    have h2 := List.append_cancel_right h1
    have h3 := List.append_cancel_left h2
    exact congrArg String.mk h3

theorem candidate_free_exists (dir : List String) (stem : String) (ext : Option String) :
    ∃ j, j < dir.length + 1 ∧ candidateName stem ext (1 + j) ∉ dir := by
  by_contra hall
  push_neg at hall
  have hinj : Function.Injective (fun j => candidateName stem ext (1 + j)) := by
    intro x y hxy
    have := candidateName_inj stem ext hxy
    omega
  have hnodup :
      ((List.range (dir.length + 1)).map (fun j => candidateName stem ext (1 + j))).Nodup :=
    (List.nodup_range _).map hinj
  have hsub :
      ((List.range (dir.length + 1)).map (fun j => candidateName stem ext (1 + j))) ⊆ dir := by
    intro x hx
    simp only [List.mem_map, List.mem_range] at hx
    obtain ⟨j, hj, rfl⟩ := hx
    exact hall j hj
  have hle := (List.subperm_of_subset hnodup hsub).length_le
  simp only [List.length_map, List.length_range] at hle
  omega

theorem probeFilename_spec (dir : List String) (stem : String) (ext : Option String) :
    ∀ fuel count, (∃ j, j < fuel ∧ candidateName stem ext (count + j) ∉ dir) →
    ∃ k, count ≤ k ∧ candidateName stem ext k ∉ dir ∧
      (∀ j, count ≤ j → j < k → candidateName stem ext j ∈ dir) ∧
      probeFilename dir stem ext count fuel = some (candidateName stem ext k) := by
  intro fuel
  induction fuel with
  | zero =>
    rintro count ⟨j, hj, _⟩
    omega
  | succ f ih =>
    rintro count ⟨j, hj, hfree⟩
    by_cases hc : candidateName stem ext count ∈ dir
    · have hj0 : j ≠ 0 := by
        rintro rfl
        exact hfree (by simpa using hc)
      have hshift : count + 1 + (j - 1) = count + j := by omega
      obtain ⟨k, hk1, hk2, hk3, hk4⟩ :=
        ih (count + 1) ⟨j - 1, by omega, by rw [hshift]; exact hfree⟩
      refine ⟨k, by omega, hk2, ?_, ?_⟩
      · intro i hi1 hi2
        rcases Nat.eq_or_lt_of_le hi1 with rfl | hlt
        · exact hc
        · exact hk3 i (by omega) hi2
      · simp only [probeFilename, if_pos hc]
        exact hk4
    · exact ⟨count, le_refl _, hc, by intro i h1 h2; omega,
        by simp only [probeFilename, if_neg hc]⟩

/-- Claim C9: collision resolution returns the input name unchanged when no
file of that name exists; otherwise it returns the candidate stem(k).ext for
the least k at least 1 whose candidate does not exist, every smaller index
being taken; in particular a.txt resolves to a(1).txt when a.txt exists, and
to a(2).txt when a(1).txt exists as well. -/
theorem get_filename_no_duplicate_spec (dir : List String) (filename : String) :
    (filename ∉ dir → get_filename_no_duplicate dir filename = some filename) ∧
    (filename ∈ dir → ∃ k, 1 ≤ k ∧
      candidateName (splitFilename filename).1 (splitFilename filename).2 k ∉ dir ∧
      (∀ j, 1 ≤ j → j < k →
        candidateName (splitFilename filename).1 (splitFilename filename).2 j ∈ dir) ∧
      get_filename_no_duplicate dir filename =
        some (candidateName (splitFilename filename).1 (splitFilename filename).2 k)) ∧
    get_filename_no_duplicate ["a.txt"] "a.txt" = some "a(1).txt" ∧
    get_filename_no_duplicate ["a.txt", "a(1).txt"] "a.txt" = some "a(2).txt" := by
  refine ⟨?_, ?_, by decide, by decide⟩
  · intro h
    simp [get_filename_no_duplicate, h]
  · intro h
    obtain ⟨j, hj, hfree⟩ :=
      candidate_free_exists dir (splitFilename filename).1 (splitFilename filename).2
    obtain ⟨k, hk1, hk2, hk3, hk4⟩ :=
      probeFilename_spec dir (splitFilename filename).1 (splitFilename filename).2
        (dir.length + 1) 1 ⟨j, hj, hfree⟩
    refine ⟨k, hk1, hk2, hk3, ?_⟩
    simp only [get_filename_no_duplicate, if_pos h]
    exact hk4

/-- Witness for get_filename_no_duplicate_spec: a.txt is returned unchanged
when only b.txt exists. -/
theorem get_filename_no_duplicate_spec_witness :
    get_filename_no_duplicate ["b.txt"] "a.txt" = some "a.txt" :=
  (get_filename_no_duplicate_spec ["b.txt"] "a.txt").1 (by decide)

/-! ## Resolver trace lemmas -/

theorem tailSpec_unflushed (alive : Bool) (r : TaskResult)
    (h1 : isTerminal3 r.final_stage = false)
    (h2 : r.final_stage ≠ TaskFinalStage.UnknownError) :
    TailSpec alive r.final_stage (sendUnwrap alive r) := by
  cases alive <;>
    simp [TailSpec, sendUnwrap, sentStages, flushBeforeOk, allDelivered, h1, h2]

theorem tailSpec_flushed (alive : Bool) (r : TaskResult)
    (h2 : r.final_stage ≠ TaskFinalStage.UnknownError) :
    TailSpec alive r.final_stage (Ev.flushOk :: sendUnwrap alive r) := by
  cases alive <;>
    simp [TailSpec, sendUnwrap, sentStages, flushBeforeOk, allDelivered, h2]

theorem tailSpec_flushErr (alive : Bool) (m : String) (r : TaskResult)
    (h1 : isTerminal3 r.final_stage = false)
    (h2 : r.final_stage ≠ TaskFinalStage.UnknownError) :
    TailSpec alive r.final_stage (Ev.flushErr m :: sendUnwrap alive r) := by
  cases alive <;>
    simp [TailSpec, sendUnwrap, sentStages, flushBeforeOk, allDelivered, h1, h2]

theorem tailSpec_ignore (alive : Bool) (m : String) :
    TailSpec alive TaskFinalStage.UnknownError
      (sendIgnore alive (TaskResult.new_unknown_error m)) := by
  cases alive <;>
    simp [TailSpec, sendIgnore, sentStages, flushBeforeOk, allDelivered,
      TaskResult.new_unknown_error, TaskResult.new, isTerminal3]

theorem tailSpec_prepend (alive : Bool) (st : TaskFinalStage) :
    ∀ (pre evs : List Ev), pre.all isNeutral = true →
    TailSpec alive st evs → TailSpec alive st (pre ++ evs) := by
  intro pre
  induction pre with
  | nil =>
    intro evs _ h
    simpa using h
  | cons e rest ih =>
    intro evs hall h
    simp only [List.all_cons, Bool.and_eq_true] at hall
    have hrec := ih evs hall.2 h
    cases e <;>
      simp_all [TailSpec, sentStages, flushBeforeOk, allDelivered, isNeutral]

theorem downloadStream_shape (alive : Bool) (flushRes : Option String)
    (writes : Nat → Option String) (cmds : Nat → TryRecvR) :
    ∀ (items : List StreamItem) (i : Nat) (s : TaskState),
    LoopShape alive (download_stream_to_file alive flushRes writes cmds items i s) := by
  intro items
  induction items with
  | nil =>
    intro i s
    cases flushRes with
    | none => exact Or.inl ⟨rfl, rfl⟩
    | some e => exact Or.inr ⟨rfl, Or.inr (Or.inr (Or.inl ⟨e, rfl⟩))⟩
  | cons it rest ih =>
    intro i s
    cases it with
    | err m => exact Or.inr ⟨rfl, Or.inl ⟨m, rfl⟩⟩
    | ok len =>
      cases hw : writes i with
      | some m =>
        refine Or.inr ⟨?_, Or.inr (Or.inl ⟨m, ?_⟩)⟩ <;>
          simp [download_stream_to_file, hw]
      | none =>
        cases hc : cmds i with
        | empty =>
          have hrec := ih (i + 1) { s with downloaded := s.downloaded + len }
          simp only [download_stream_to_file, hw, hc]
          exact hrec
        | closed =>
          refine Or.inr ⟨?_, Or.inr (Or.inr (Or.inr (Or.inr (Or.inr ?_))))⟩ <;>
            simp [download_stream_to_file, hw, hc]
        | ok c =>
          cases c with
          | stop =>
            cases hf : flushRes with
            | none =>
              refine Or.inr ⟨?_, Or.inr (Or.inr (Or.inr (Or.inl ?_)))⟩ <;>
                simp [download_stream_to_file, hw, hc, hf]
            | some m =>
              refine Or.inr ⟨?_, Or.inr (Or.inr (Or.inl ⟨m, ?_⟩))⟩ <;>
                simp [download_stream_to_file, hw, hc, hf]
          | abort =>
            cases hf : flushRes with
            | none =>
              refine Or.inr ⟨?_, Or.inr (Or.inr (Or.inr (Or.inr (Or.inl ?_))))⟩ <;>
                simp [download_stream_to_file, hw, hc, hf]
            | some m =>
              refine Or.inr ⟨?_, Or.inr (Or.inr (Or.inl ⟨m, ?_⟩))⟩ <;>
                simp [download_stream_to_file, hw, hc, hf]

theorem loopShape_term (alive : Bool) (o : LoopOut) (h : LoopShape alive o)
    (hr : o.handlerReturned = false) : ∃ st, TailSpec alive st o.events := by
  rcases h with ⟨h1, _⟩ | ⟨_, h⟩
  · rw [h1] at hr
    cases hr
  · rcases h with ⟨m, he⟩ | ⟨m, he⟩ | ⟨m, he⟩ | he | he | he
    · exact ⟨_, he ▸ tailSpec_unflushed alive
        (TaskResult.new_failed_to_download m) rfl (fun h => nomatch h)⟩
    · exact ⟨_, he ▸ tailSpec_unflushed alive
        (TaskResult.new_failed_to_write m) rfl (fun h => nomatch h)⟩
    · exact ⟨_, he ▸ tailSpec_flushErr alive m
        (TaskResult.new_failed_to_write m) rfl (fun h => nomatch h)⟩
    · exact ⟨_, he ▸ tailSpec_flushed alive TaskResult.new_interrupted (by decide)⟩
    · exact ⟨_, he ▸ tailSpec_flushed alive TaskResult.new_abort (by decide)⟩
    · exact ⟨_, he ▸ tailSpec_ignore alive _⟩

theorem loopShape_stream_only (alive : Bool) (o : LoopOut) (h : LoopShape alive o) :
    (∀ r, Ev.request r ∉ o.events) ∧ (∀ n, Ev.streamStart n ∉ o.events) := by
  rcases h with ⟨_, he⟩ | ⟨_, h⟩
  · rw [he]
    simp
  · rcases h with ⟨m, he⟩ | ⟨m, he⟩ | ⟨m, he⟩ | he | he | he <;> rw [he] <;>
      cases alive <;> simp [sendUnwrap, sendIgnore]

theorem resume_file_error_stage (env : Env) (d : Nat) (ar : Bool) (tr : TaskResult)
    (h : resume_file env d ar = Except.error tr) :
    tr.final_stage = TaskFinalStage.FailToResumeFile ∨
    tr.final_stage = TaskFinalStage.FileCorrupted := by
  unfold resume_file at h
  cases ar with
  | false =>
    cases ht : env.openTrunc with
    | none => simp [ht] at h
    | some e =>
      simp only [ht, Bool.not_false, if_pos] at h
      cases h
      exact Or.inl rfl
  | true =>
    simp only [Bool.not_true, Bool.false_eq_true, if_neg, reduceIte] at h
    cases ha : env.openAppend with
    | some e =>
      simp only [ha] at h
      cases h
      exact Or.inl rfl
    | none =>
      simp only [ha] at h
      cases hm : env.metaLen with
      | error e =>
        simp only [hm] at h
        cases h
        exact Or.inl rfl
      | ok len =>
        simp only [hm] at h
        by_cases hlt : len < d
        · simp only [if_pos hlt] at h
          cases h
          exact Or.inr rfl
        · simp only [if_neg hlt] at h
          cases hs : env.setLen with
          | some e =>
            simp only [hs] at h
            cases h
            exact Or.inl rfl
          | none => simp [hs] at h

theorem grds_events (env : Env) (s : TaskState) (d : Nat) (ar : Bool) :
    ∃ rng, (get_resume_download_stream env s d ar).1 = [Ev.request rng] := by
  cases ar with
  | false =>
    refine ⟨none, ?_⟩
    cases hc : env.connect with
    | error e => simp [get_resume_download_stream, hc]
    | ok resp => simp [get_resume_download_stream, hc]
  | true =>
    refine ⟨some ("bytes=" ++ decimalStr d ++ "-"), ?_⟩
    cases hc : env.connect with
    | error e => simp [get_resume_download_stream, hc]
    | ok resp =>
      cases hl : resp.content_length <;> simp [get_resume_download_stream, hc, hl]

theorem loop_compose_tail (alive : Bool) (pre : List Ev) (hpre : pre.all isNeutral = true)
    (o : LoopOut) (hshape : LoopShape alive o) (fl : Nat) :
    ∃ st, TailSpec alive st (if o.handlerReturned
      then pre ++ ((Ev.streamStart fl :: o.events) ++ sendUnwrap alive TaskResult.new_finished)
      else pre ++ (Ev.streamStart fl :: o.events)) := by
  cases hr : o.handlerReturned with
  | true =>
    rcases hshape with ⟨_, hev⟩ | ⟨hfalse, _⟩
    · rw [hev]
      simp only [if_pos rfl]
      have hform : pre ++ ((Ev.streamStart fl :: [Ev.flushOk]) ++
          sendUnwrap alive TaskResult.new_finished) =
          (pre ++ [Ev.streamStart fl]) ++
            (Ev.flushOk :: sendUnwrap alive TaskResult.new_finished) := by
        simp
      rw [hform]
      refine ⟨TaskFinalStage.Finished, tailSpec_prepend alive _ _ _ ?_ ?_⟩
      · simp only [List.all_append, hpre, Bool.true_and]
        rfl
      · exact tailSpec_flushed alive TaskResult.new_finished (fun h => nomatch h)
    · rw [hr] at hfalse
      cases hfalse
  | false =>
    rw [if_neg (fun h => nomatch h)]
    obtain ⟨st, hst⟩ := loopShape_term alive o hshape hr
    have hform : pre ++ (Ev.streamStart fl :: o.events) =
        (pre ++ [Ev.streamStart fl]) ++ o.events := by
      simp
    rw [hform]
    refine ⟨st, tailSpec_prepend alive st _ _ ?_ hst⟩
    simp only [List.all_append, hpre, Bool.true_and]
    rfl

theorem normal_tail_spec (env : Env) (s0 : TaskState) (url_str : String) :
    ∃ st, TailSpec env.alive st (handle_normal_download env s0 url_str).events := by
  cases hp : get_proper_url env.parse url_str with
  | error e =>
    refine ⟨TaskFinalStage.UnknownUrl, ?_⟩
    simp only [handle_normal_download, hp]
    exact tailSpec_unflushed env.alive (TaskResult.new_unknown_url e) rfl (fun h => nomatch h)
  | ok url =>
    cases hcb : env.clientBuild with
    | error e =>
      refine ⟨TaskFinalStage.FailToConnection, ?_⟩
      simp only [handle_normal_download, hp, hcb]
      exact tailSpec_unflushed env.alive (TaskResult.new_failed_to_connection e) rfl
        (fun h => nomatch h)
    | ok u =>
      cases hconn : env.connect with
      | error e =>
        refine ⟨TaskFinalStage.FailToConnection, ?_⟩
        simp only [handle_normal_download, hp, hcb, get_download_head, hconn]
        exact tailSpec_prepend env.alive _ [Ev.request none] _ rfl
          (tailSpec_unflushed env.alive (TaskResult.new_failed_to_connection e) rfl
            (fun h => nomatch h))
      | ok resp =>
        cases hcf : env.createFile with
        | some e =>
          refine ⟨TaskFinalStage.FailToCreateFile, ?_⟩
          simp only [handle_normal_download, hp, hcb, get_download_head, hconn, hcf]
          exact tailSpec_prepend env.alive _ [Ev.request none] _ rfl
            (tailSpec_unflushed env.alive (TaskResult.new_failed_to_create_file e) rfl
              (fun h => nomatch h))
        | none =>
          simp only [handle_normal_download, hp, hcb, get_download_head, hconn, hcf,
            apply_ite AttemptOut.events]
          exact loop_compose_tail env.alive [Ev.request none] rfl _
            (downloadStream_shape env.alive env.flushRes env.writes env.cmds env.stream 0 _) 0

theorem resume_tail_spec (env : Env) (s0 : TaskState) (u : String) (hu : s0.url = some u) :
    ∃ st, TailSpec env.alive st (handle_resume_download env s0).events := by
  simp only [handle_resume_download, hu]
  split
  · rename_i tr hrf
    rcases resume_file_error_stage _ _ _ _ hrf with hst | hst <;>
      exact ⟨tr.final_stage, tailSpec_unflushed env.alive tr (by rw [hst]; rfl)
        (by rw [hst]; exact fun h => nomatch h)⟩
  · rename_i fileLen hrf
    cases hcb : env.clientBuild with
    | error e =>
      simp only [hcb]
      exact ⟨_, tailSpec_unflushed env.alive (TaskResult.new_failed_to_resume_connection e) rfl
        (fun h => nomatch h)⟩
    | ok v =>
      simp only [hcb]
      split
      · rename_i gevs e heq
        have hg1 := congrArg Prod.fst heq
        obtain ⟨rng, hrng⟩ := grds_events env _ _ _
        rw [hrng] at hg1
        simp only at hg1
        rw [← hg1]
        exact ⟨_, tailSpec_prepend env.alive _ [Ev.request rng] _ rfl
          (tailSpec_unflushed env.alive (TaskResult.new_failed_to_resume_connection e) rfl
            (fun h => nomatch h))⟩
      · rename_i gevs s3 hsts heq
        have hg1 := congrArg Prod.fst heq
        obtain ⟨rng, hrng⟩ := grds_events env _ _ _
        rw [hrng] at hg1
        simp only at hg1
        rw [← hg1, apply_ite AttemptOut.events]
        exact loop_compose_tail env.alive [Ev.request rng] rfl _
          (downloadStream_shape env.alive env.flushRes env.writes env.cmds env.stream 0 _)
          fileLen

theorem attempt_tail_spec (env : Env) (s0 : TaskState) (req : DownloadRequest)
    (hurl : req = DownloadRequest.Resume → s0.url.isSome = true) :
    ∃ st, TailSpec env.alive st (handle_task env s0 req).events := by
  cases req with
  | Normal url_str => exact normal_tail_spec env s0 url_str
  | Resume =>
    have h := hurl rfl
    cases hu : s0.url with
    | none =>
      rw [hu] at h
      cases h
    | some u => exact resume_tail_spec env s0 u hu

/-- Claim C1: in every attempt whose result receiver is alive (every resumed
task has a recorded URL), exactly one TaskResult is sent on the result
channel, it is delivered, the resolver does not panic, and whenever the
result is Finished, Interrupted or Abort a successful flush of the buffered
file writer precedes the send. -/
theorem resolver_sends_once_flushed (env : Env) (s0 : TaskState) (req : DownloadRequest)
    (halive : env.alive = true)
    (hurl : req = DownloadRequest.Resume → s0.url.isSome = true) :
    ∃ st, sentStages (handle_task env s0 req).events = [st] ∧
      flushBeforeOk false (handle_task env s0 req).events = true ∧
      allDelivered (handle_task env s0 req).events = true ∧
      Ev.panic ∉ (handle_task env s0 req).events := by
  obtain ⟨st, h1, h2, h3, h4⟩ := attempt_tail_spec env s0 req hurl
  refine ⟨st, h1, h2, by rw [h3, halive], ?_⟩
  intro hmem
  rcases h4.mp hmem with ⟨hfalse, _⟩
  rw [halive] at hfalse
  cases hfalse

/-- Witness for resolver_sends_once_flushed on a concrete attempt whose URL
does not parse: one UnknownUrl result, no panic. -/
theorem resolver_sends_once_flushed_witness :
    sentStages (handle_task
      ⟨fun _ => Except.error (UrlParseError.other "bad"), fun _ => none, "d", [],
        Except.ok (), Except.error "e", none, none, none, Except.ok 0, none, [],
        fun _ => none, fun _ => TryRecvR.empty, none, true, 0⟩
      (TaskState.new 0) (DownloadRequest.Normal "u")).events = [TaskFinalStage.UnknownUrl] ∧
    Ev.panic ∉ (handle_task
      ⟨fun _ => Except.error (UrlParseError.other "bad"), fun _ => none, "d", [],
        Except.ok (), Except.error "e", none, none, none, Except.ok 0, none, [],
        fun _ => none, fun _ => TryRecvR.empty, none, true, 0⟩
      (TaskState.new 0) (DownloadRequest.Normal "u")).events := by
  obtain ⟨st, h1, h2, h3, h4⟩ := resolver_sends_once_flushed
    ⟨fun _ => Except.error (UrlParseError.other "bad"), fun _ => none, "d", [],
      Except.ok (), Except.error "e", none, none, none, Except.ok 0, none, [],
      fun _ => none, fun _ => TryRecvR.empty, none, true, 0⟩
    (TaskState.new 0) (DownloadRequest.Normal "u") rfl (fun h => nomatch h)
  exact ⟨by decide, h4⟩

/-- Claim C7 (amended): when the result receiver has been dropped, the
resolver still attempts exactly one result send and nothing is delivered; the
send failure is silently ignored only for the UnknownError result produced
when the command channel closed unexpectedly — for every other terminal
outcome the unwrap of the failed send panics the resolver task. -/
theorem broken_channel_send (env : Env) (s0 : TaskState) (req : DownloadRequest)
    (hdead : env.alive = false)
    (hurl : req = DownloadRequest.Resume → s0.url.isSome = true) :
    ∃ st, sentStages (handle_task env s0 req).events = [st] ∧
      allDelivered (handle_task env s0 req).events = false ∧
      ((Ev.panic ∈ (handle_task env s0 req).events) ↔ st ≠ TaskFinalStage.UnknownError) := by
  obtain ⟨st, h1, h2, h3, h4⟩ := attempt_tail_spec env s0 req hurl
  refine ⟨st, h1, by rw [h3, hdead], ?_⟩
  rw [h4]
  simp [hdead]

/-- Witness for broken_channel_send on a concrete dead-receiver attempt. -/
theorem broken_channel_send_witness :
    allDelivered (handle_task
      ⟨fun _ => Except.error (UrlParseError.other "bad"), fun _ => none, "d", [],
        Except.ok (), Except.error "e", none, none, none, Except.ok 0, none, [],
        fun _ => none, fun _ => TryRecvR.empty, none, false, 0⟩
      (TaskState.new 0) (DownloadRequest.Normal "u")).events = false := by
  obtain ⟨st, h1, h2, h3⟩ := broken_channel_send
    ⟨fun _ => Except.error (UrlParseError.other "bad"), fun _ => none, "d", [],
      Except.ok (), Except.error "e", none, none, none, Except.ok 0, none, [],
      fun _ => none, fun _ => TryRecvR.empty, none, false, 0⟩
    (TaskState.new 0) (DownloadRequest.Normal "u") rfl (fun h => nomatch h)
  exact h2

/-- Counterexample to claim C7 as stated: with the result receiver dropped,
the resolver of an attempt whose URL fails to parse sends its UnknownUrl
result with unwrap and panics — sending the TaskResult is not panic-free. -/
theorem broken_channel_panic_example :
    Ev.panic ∈ (handle_task
      ⟨fun _ => Except.error (UrlParseError.other "bad"), fun _ => none, "d", [],
        Except.ok (), Except.error "e", none, none, none, Except.ok 0, none, [],
        fun _ => none, fun _ => TryRecvR.empty, none, false, 0⟩
      (TaskState.new 0) (DownloadRequest.Normal "u")).events ∧
    sentStages (handle_task
      ⟨fun _ => Except.error (UrlParseError.other "bad"), fun _ => none, "d", [],
        Except.ok (), Except.error "e", none, none, none, Except.ok 0, none, [],
        fun _ => none, fun _ => TryRecvR.empty, none, false, 0⟩
      (TaskState.new 0) (DownloadRequest.Normal "u")).events = [TaskFinalStage.UnknownUrl] := by
  decide

theorem loopPreserves_increment (s : TaskState) (len : Nat) :
    loopPreserves s { s with downloaded := s.downloaded + len } :=
  ⟨rfl, rfl, rfl, rfl, rfl, rfl, rfl, Nat.le_add_right _ _⟩

theorem loopPreserves_trans {s t v : TaskState} (h1 : loopPreserves s t)
    (h2 : loopPreserves t v) : loopPreserves s v := by
  obtain ⟨a1, a2, a3, a4, a5, a6, a7, a8⟩ := h1
  obtain ⟨b1, b2, b3, b4, b5, b6, b7, b8⟩ := h2
  exact ⟨b1.trans a1, b2.trans a2, b3.trans a3, b4.trans a4, b5.trans a5,
    b6.trans a6, b7.trans a7, a8.trans b8⟩

theorem downloadStream_states (alive : Bool) (flushRes : Option String)
    (writes : Nat → Option String) (cmds : Nat → TryRecvR) :
    ∀ (items : List StreamItem) (i : Nat) (s : TaskState),
    List.Chain' (· ≤ ·) (s.downloaded ::
      (download_stream_to_file alive flushRes writes cmds items i s).states.map
        (fun t => t.downloaded)) ∧
    (∀ t ∈ (download_stream_to_file alive flushRes writes cmds items i s).states,
      loopPreserves s t) ∧
    loopPreserves s (download_stream_to_file alive flushRes writes cmds items i s).state := by
  intro items
  induction items with
  | nil =>
    intro i s
    cases flushRes <;> simp [download_stream_to_file, loopPreserves]
  | cons it rest ih =>
    intro i s
    cases it with
    | err m => simp [download_stream_to_file, loopPreserves]
    | ok len =>
      cases hw : writes i with
      | some m => simp [download_stream_to_file, hw, loopPreserves]
      | none =>
        cases hc : cmds i with
        | closed =>
          simp [download_stream_to_file, hw, hc, loopPreserves, Nat.le_add_right]
        | ok c =>
          cases c <;> cases hf : flushRes <;>
            simp [download_stream_to_file, hw, hc, hf, loopPreserves, Nat.le_add_right]
        | empty =>
          obtain ⟨ih1, ih2, ih3⟩ := ih (i + 1) { s with downloaded := s.downloaded + len }
          refine ⟨?_, ?_, ?_⟩
          · simp only [download_stream_to_file, hw, hc, List.map_cons]
            rw [List.chain'_cons]
            exact ⟨Nat.le_add_right _ _, ih1⟩
          · intro t ht
            simp only [download_stream_to_file, hw, hc, List.mem_cons] at ht
            rcases ht with rfl | ht
            · exact loopPreserves_increment s len
            · exact loopPreserves_trans (loopPreserves_increment s len) (ih2 t ht)
          · simp only [download_stream_to_file, hw, hc]
            exact loopPreserves_trans (loopPreserves_increment s len) ih3

theorem get_download_head_ok (env : Env) (s : TaskState) (url : String)
    (resp : HttpResponse) (hconn : env.connect = Except.ok resp)
    (evs : List Ev) (s1 : TaskState)
    (h : get_download_head env s url = (evs, Except.ok s1)) :
    evs = [Ev.request none] ∧ s1.downloaded = s.downloaded ∧
    s1.last_downloaded = s.last_downloaded ∧ s1.last_updated = s.last_updated ∧
    s1.url = some resp.url ∧ s1.content_length = resp.content_length := by
  simp only [get_download_head, hconn, Prod.mk.injEq, Except.ok.injEq] at h
  obtain ⟨hevs, hs1⟩ := h
  subst hs1
  exact ⟨hevs.symm, rfl, rfl, rfl, rfl, rfl⟩

theorem grds_ok (env : Env) (s : TaskState) (d : Nat) (ar : Bool)
    (evs : List Ev) (s3 : TaskState) (hsts : List TaskState)
    (h : get_resume_download_stream env s d ar = (evs, Except.ok (s3, hsts))) :
    s3.downloaded = s.downloaded ∧ s3.last_downloaded = s.last_downloaded ∧
    (hsts = [s3] ∨ hsts = []) := by
  cases ar with
  | false =>
    cases hc : env.connect with
    | error e => simp [get_resume_download_stream, hc] at h
    | ok resp =>
      simp only [get_resume_download_stream, hc, Bool.false_eq_true, if_neg, reduceIte,
        Prod.mk.injEq, Except.ok.injEq] at h
      obtain ⟨_, hs3, hhst⟩ := h
      subst hs3
      subst hhst
      exact ⟨rfl, rfl, Or.inl rfl⟩
  | true =>
    cases hc : env.connect with
    | error e => simp [get_resume_download_stream, hc] at h
    | ok resp =>
      cases hl : resp.content_length with
      | some len =>
        simp only [get_resume_download_stream, hc, hl, if_pos, reduceIte,
          Prod.mk.injEq, Except.ok.injEq] at h
        obtain ⟨_, hs3, hhst⟩ := h
        subst hs3
        subst hhst
        exact ⟨rfl, rfl, Or.inl rfl⟩
      | none =>
        simp only [get_resume_download_stream, hc, hl, if_pos, reduceIte,
          Prod.mk.injEq, Except.ok.injEq] at h
        obtain ⟨_, hs3, hhst⟩ := h
        subst hs3
        subst hhst
        exact ⟨rfl, rfl, Or.inr rfl⟩

theorem attemptOut_ite_states (c : Prop) [Decidable c] (a b : AttemptOut)
    (h1 : a.states = b.states) : (if c then a else b).states = b.states := by
  split <;> simp [h1]

theorem attemptOut_ite_state (c : Prop) [Decidable c] (a b : AttemptOut)
    (h1 : a.state = b.state) : (if c then a else b).state = b.state := by
  split <;> simp [h1]

theorem speedInv_of_preserves {base t : TaskState} (h : speedInv base)
    (hp : loopPreserves base t) : speedInv t := by
  obtain ⟨_, _, _, _, _, p6, _, p8⟩ := hp
  simp only [speedInv] at h ⊢
  rw [p6]
  exact le_trans h p8

theorem normal_states (env : Env) (s0 : TaskState) (url_str : String) :
    List.Chain' (· ≤ ·) (downloadedTrace s0 (handle_normal_download env s0 url_str)) ∧
    (speedInv s0 →
      (∀ t ∈ (handle_normal_download env s0 url_str).states, speedInv t) ∧
      speedInv (handle_normal_download env s0 url_str).state) := by
  cases hp : get_proper_url env.parse url_str with
  | error e =>
    simp only [handle_normal_download, hp]
    exact ⟨by simp [downloadedTrace], fun h => ⟨by simp, h⟩⟩
  | ok url =>
    cases hcb : env.clientBuild with
    | error e =>
      simp only [handle_normal_download, hp, hcb]
      exact ⟨by simp [downloadedTrace], fun h => ⟨by simp, h⟩⟩
    | ok v =>
      cases hconn : env.connect with
      | error e =>
        simp only [handle_normal_download, hp, hcb, get_download_head, hconn]
        exact ⟨by simp [downloadedTrace], fun h => ⟨by simp, h⟩⟩
      | ok resp =>
        simp only [handle_normal_download, hp, hcb]
        split
        · rename_i evs e heq
          simp [get_download_head, hconn] at heq
        · rename_i evs s1 heq
          obtain ⟨hevs, hd, hld, hlu, hurlx, hcl⟩ :=
            get_download_head_ok env s0 url resp hconn evs s1 heq
          have hinv1 : speedInv s0 → speedInv s1 := by
            intro h
            simp only [speedInv, hld, hd]
            exact h
          cases hcf : env.createFile with
          | some e =>
            constructor
            · simp [downloadedTrace, List.chain'_cons, hd]
            · intro h
              refine ⟨?_, hinv1 h⟩
              intro t ht
              simp only [List.mem_singleton] at ht
              subst ht
              exact hinv1 h
          | none =>
            obtain ⟨hchain, hpres, hfinal⟩ := downloadStream_states env.alive env.flushRes
              env.writes env.cmds env.stream 0 s1
            simp only [downloadedTrace, attemptOut_ite_states, attemptOut_ite_state]
            constructor
            · simp only [List.map_cons]
              rw [List.chain'_cons]
              exact ⟨le_of_eq hd.symm, hchain⟩
            · intro h
              refine ⟨?_, speedInv_of_preserves (hinv1 h) hfinal⟩
              intro t ht
              rcases List.mem_cons.mp ht with rfl | ht
              · exact hinv1 h
              · exact speedInv_of_preserves (hinv1 h) (hpres t ht)

theorem resume_states (env : Env) (s0 : TaskState) (u : String) (hu : s0.url = some u) :
    (s0.accept_ranges = true →
      List.Chain' (· ≤ ·) (downloadedTrace s0 (handle_resume_download env s0))) ∧
    (s0.accept_ranges = false →
      (downloadedTrace s0 (handle_resume_download env s0)).tail.head? = some 0 ∧
      List.Chain' (· ≤ ·) (downloadedTrace s0 (handle_resume_download env s0)).tail) ∧
    (∀ t ∈ (handle_resume_download env s0).states, speedInv t) ∧
    speedInv (handle_resume_download env s0).state := by
  cases har : s0.accept_ranges with
  | true =>
    simp only [handle_resume_download, hu, har, reduceIte]
    split
    · rename_i tr hrf
      refine ⟨fun _ => ?_, fun hf => Bool.noConfusion hf, ?_, ?_⟩
      · simp [downloadedTrace, List.chain'_cons]
      · intro t ht
        simp only [List.mem_singleton] at ht
        subst ht
        simp [speedInv]
      · simp [speedInv]
    · rename_i fileLen hrf
      cases hcb : env.clientBuild with
      | error e =>
        simp only [hcb]
        refine ⟨fun _ => ?_, fun hf => Bool.noConfusion hf, ?_, ?_⟩
        · simp [downloadedTrace, List.chain'_cons]
        · intro t ht
          simp only [List.mem_singleton] at ht
          subst ht
          simp [speedInv]
        · simp [speedInv]
      | ok v =>
        simp only [hcb]
        split
        · rename_i gevs e heq
          refine ⟨fun _ => ?_, fun hf => Bool.noConfusion hf, ?_, ?_⟩
          · simp [downloadedTrace, List.chain'_cons]
          · intro t ht
            simp only [List.mem_singleton] at ht
            subst ht
            simp [speedInv]
          · simp [speedInv]
        · rename_i gevs s3 hsts heq
          obtain ⟨hd3, hld3, hh⟩ := grds_ok env _ _ _ _ _ _ heq
          have hd3' : s3.downloaded = s0.downloaded := hd3
          have hld3' : s3.last_downloaded = s0.downloaded := hld3
          have hinv3 : speedInv s3 := by
            simp [speedInv, hld3', hd3']
          obtain ⟨hchain, hpres, hfinal⟩ := downloadStream_states env.alive env.flushRes
            env.writes env.cmds env.stream 0 s3
          simp only [downloadedTrace, attemptOut_ite_states, attemptOut_ite_state]
          rcases hh with rfl | rfl
          · refine ⟨fun _ => ?_, fun hf => Bool.noConfusion hf, ?_, ?_⟩
            · simp only [List.map_append, List.map_cons, List.map_nil, List.singleton_append,
                List.cons_append, List.nil_append]
              rw [List.chain'_cons, List.chain'_cons]
              exact ⟨le_refl _, le_of_eq hd3'.symm, hchain⟩
            · intro t ht
              simp only [List.singleton_append, List.cons_append, List.nil_append,
                List.mem_cons] at ht
              rcases ht with rfl | rfl | ht
              · simp [speedInv]
              · exact hinv3
              · exact speedInv_of_preserves hinv3 (hpres t ht)
            · exact speedInv_of_preserves hinv3 hfinal
          · refine ⟨fun _ => ?_, fun hf => Bool.noConfusion hf, ?_, ?_⟩
            · simp only [List.append_nil, List.map_append, List.map_cons, List.map_nil,
                List.singleton_append, List.cons_append, List.nil_append]
              rw [List.chain'_cons]
              refine ⟨le_refl _, ?_⟩
              rw [← hd3']
              exact hchain
            · intro t ht
              simp only [List.append_nil, List.singleton_append, List.cons_append,
                List.nil_append, List.mem_cons] at ht
              rcases ht with rfl | ht
              · simp [speedInv]
              · exact speedInv_of_preserves hinv3 (hpres t ht)
            · exact speedInv_of_preserves hinv3 hfinal
  | false =>
    simp only [handle_resume_download, hu, har, Bool.false_eq_true, reduceIte, if_false,
      ite_false]
    split
    · rename_i tr hrf
      refine ⟨fun hf => False.elim hf, fun _ => ?_, ?_, ?_⟩
      · simp [downloadedTrace, List.chain'_cons]
      · intro t ht
        simp only [List.mem_cons, List.mem_singleton] at ht
        rcases ht with rfl | rfl | hf
        · simp [speedInv]
        · simp [speedInv]
        · cases hf
      · simp [speedInv]
    · rename_i fileLen hrf
      cases hcb : env.clientBuild with
      | error e =>
        simp only [hcb]
        refine ⟨fun hf => False.elim hf, fun _ => ?_, ?_, ?_⟩
        · simp [downloadedTrace, List.chain'_cons]
        · intro t ht
          simp only [List.mem_cons, List.mem_singleton] at ht
          rcases ht with rfl | rfl | hf
          · simp [speedInv]
          · simp [speedInv]
          · cases hf
        · simp [speedInv]
      | ok v =>
        simp only [hcb]
        split
        · rename_i gevs e heq
          refine ⟨fun hf => False.elim hf, fun _ => ?_, ?_, ?_⟩
          · simp [downloadedTrace, List.chain'_cons]
          · intro t ht
            simp only [List.mem_cons, List.mem_singleton] at ht
            rcases ht with rfl | rfl | hf
            · simp [speedInv]
            · simp [speedInv]
            · cases hf
          · simp [speedInv]
        · rename_i gevs s3 hsts heq
          obtain ⟨hd3, hld3, hh⟩ := grds_ok env _ _ _ _ _ _ heq
          have hd3' : s3.downloaded = 0 := hd3
          have hld3' : s3.last_downloaded = 0 := hld3
          have hinv3 : speedInv s3 := by
            simp [speedInv, hld3', hd3']
          obtain ⟨hchain, hpres, hfinal⟩ := downloadStream_states env.alive env.flushRes
            env.writes env.cmds env.stream 0 s3
          simp only [downloadedTrace, attemptOut_ite_states, attemptOut_ite_state]
          rcases hh with rfl | rfl
          · refine ⟨fun hf => False.elim hf, fun _ => ?_, ?_, ?_⟩
            · simp only [List.map_append, List.map_cons, List.map_nil, List.singleton_append,
                List.cons_append, List.nil_append, List.tail_cons]
              refine ⟨rfl, ?_⟩
              rw [List.chain'_cons, List.chain'_cons]
              exact ⟨le_refl _, le_of_eq hd3'.symm, hchain⟩
            · intro t ht
              simp only [List.singleton_append, List.cons_append, List.nil_append,
                List.mem_cons] at ht
              rcases ht with rfl | rfl | rfl | ht
              · simp [speedInv]
              · simp [speedInv]
              · exact hinv3
              · exact speedInv_of_preserves hinv3 (hpres t ht)
            · exact speedInv_of_preserves hinv3 hfinal
          · refine ⟨fun hf => False.elim hf, fun _ => ?_, ?_, ?_⟩
            · simp only [List.append_nil, List.map_append, List.map_cons, List.map_nil,
                List.singleton_append, List.cons_append, List.nil_append, List.tail_cons]
              refine ⟨rfl, ?_⟩
              rw [List.chain'_cons]
              refine ⟨le_refl _, ?_⟩
              nth_rewrite 1 [← hd3']
              exact hchain
            · intro t ht
              simp only [List.append_nil, List.singleton_append, List.cons_append,
                List.nil_append, List.mem_cons] at ht
              rcases ht with rfl | rfl | ht
              · simp [speedInv]
              · simp [speedInv]
              · exact speedInv_of_preserves hinv3 (hpres t ht)
            · exact speedInv_of_preserves hinv3 hfinal

/-- Claim C2: within one attempt the shared downloaded counter never
decreases: the mutation trace of a normal attempt is non-decreasing, as is
that of a resume attempt whose stored accept_ranges flag is true; when the
flag is false the very first mutation of the attempt sets the counter to 0
and from there the trace is again non-decreasing — the reset at the start of
a non-range resume is the only write that can lower the counter. -/
theorem downloaded_monotone (env : Env) (s0 : TaskState) (req : DownloadRequest) :
    (∀ url_str, req = DownloadRequest.Normal url_str →
      List.Chain' (· ≤ ·) (downloadedTrace s0 (handle_task env s0 req))) ∧
    (req = DownloadRequest.Resume → s0.accept_ranges = true →
      List.Chain' (· ≤ ·) (downloadedTrace s0 (handle_task env s0 req))) ∧
    (req = DownloadRequest.Resume → s0.accept_ranges = false → s0.url.isSome = true →
      (downloadedTrace s0 (handle_task env s0 req)).tail.head? = some 0 ∧
      List.Chain' (· ≤ ·) (downloadedTrace s0 (handle_task env s0 req)).tail) := by
  refine ⟨?_, ?_, ?_⟩
  · rintro url_str rfl
    exact (normal_states env s0 url_str).1
  · rintro rfl har
    cases hu : s0.url with
    | none => simp [handle_task, handle_resume_download, hu, downloadedTrace]
    | some u => exact (resume_states env s0 u hu).1 har
  · rintro rfl har hsome
    cases hu : s0.url with
    | none =>
      rw [hu] at hsome
      cases hsome
    | some u => exact (resume_states env s0 u hu).2.1 har

/-- Witness for downloaded_monotone on a concrete normal attempt. -/
theorem downloaded_monotone_witness :
    List.Chain' (· ≤ ·) (downloadedTrace (TaskState.new 0) (handle_task
      ⟨fun _ => Except.error (UrlParseError.other "bad"), fun _ => none, "d", [],
        Except.ok (), Except.error "e", none, none, none, Except.ok 0, none, [],
        fun _ => none, fun _ => TryRecvR.empty, none, true, 0⟩
      (TaskState.new 0) (DownloadRequest.Normal "u"))) :=
  (downloaded_monotone
    ⟨fun _ => Except.error (UrlParseError.other "bad"), fun _ => none, "d", [],
      Except.ok (), Except.error "e", none, none, none, Except.ok 0, none, [],
      fun _ => none, fun _ => TryRecvR.empty, none, true, 0⟩
    (TaskState.new 0) (DownloadRequest.Normal "u")).1 "u" rfl

/-- Claim C10: every operation that mutates a TaskState preserves the
invariant last_downloaded is at most downloaded — the constructor establishes
it, every state produced during any attempt (chunk increments, the resume
reset, header writes) maintains it, and on any state satisfying it, ui_update
does not underflow its unsigned subtraction (it returns some state, never the
panic) and preserves the invariant. -/
theorem ui_update_panic_free :
    (∀ now, speedInv (TaskState.new now)) ∧
    (∀ env s0 req, speedInv s0 →
      (∀ t ∈ (handle_task env s0 req).states, speedInv t) ∧
      speedInv (handle_task env s0 req).state) ∧
    (∀ s now speedOf, speedInv s →
      ∃ s', TaskState.ui_update s now speedOf = some s' ∧ speedInv s') := by
  refine ⟨?_, ?_, ?_⟩
  · intro now
    simp [speedInv, TaskState.new]
  · intro env s0 req hinv
    cases req with
    | Normal url_str => exact (normal_states env s0 url_str).2 hinv
    | Resume =>
      cases hu : s0.url with
      | none =>
        constructor
        · intro t ht
          simp [handle_task, handle_resume_download, hu] at ht
        · simpa [handle_task, handle_resume_download, hu] using hinv
      | some u =>
        exact ⟨(resume_states env s0 u hu).2.2.1, (resume_states env s0 u hu).2.2.2⟩
  · intro s now speedOf hinv
    simp only [TaskState.ui_update]
    by_cases h : REFRESH_INTERVAL ≤ now - s.last_updated
    · have hinv' : s.last_downloaded ≤ s.downloaded := hinv
      rw [if_pos h, if_pos hinv']
      exact ⟨_, rfl, by simp [speedInv]⟩
    · rw [if_neg h]
      exact ⟨s, rfl, hinv⟩

/-- Witness for ui_update_panic_free: on the freshly constructed state,
ui_update at time 600 returns some state. -/
theorem ui_update_panic_free_witness :
    (TaskState.ui_update (TaskState.new 0) 600 (fun a b => a / b)).isSome = true := by
  obtain ⟨s', hs', _⟩ := ui_update_panic_free.2.2 (TaskState.new 0) 600 (fun a b => a / b)
    (Nat.le_refl 0)
  rw [hs']
  rfl

theorem sendUnwrap_obs (alive : Bool) (r : TaskResult) :
    sentStages (sendUnwrap alive r) = [r.final_stage] ∧
    (∀ x, Ev.request x ∉ sendUnwrap alive r) ∧
    (∀ n, Ev.streamStart n ∉ sendUnwrap alive r) := by
  cases alive <;> simp [sendUnwrap, sentStages]

/-- Claim C3: for a resume attempt with ranges supported — if the local file
opens and its length is strictly smaller than the recorded downloaded count,
the attempt terminates with FileCorrupted and neither issues any HTTP request
nor starts streaming; if the length is at least downloaded, the file is
truncated to exactly downloaded bytes and that is the file length streaming
starts from; any file-open or metadata failure terminates the attempt with
FailToResumeFile. -/
theorem resume_file_checks (env : Env) (s0 : TaskState) (u : String)
    (hu : s0.url = some u) (har : s0.accept_ranges = true) :
    (∀ len, env.openAppend = none → env.metaLen = Except.ok len → len < s0.downloaded →
      sentStages (handle_resume_download env s0).events = [TaskFinalStage.FileCorrupted] ∧
      (∀ r, Ev.request r ∉ (handle_resume_download env s0).events) ∧
      (∀ n, Ev.streamStart n ∉ (handle_resume_download env s0).events)) ∧
    (∀ len, env.openAppend = none → env.metaLen = Except.ok len → s0.downloaded ≤ len →
      env.setLen = none →
      resume_file env s0.downloaded true = Except.ok s0.downloaded ∧
      (∀ n, Ev.streamStart n ∈ (handle_resume_download env s0).events →
        n = s0.downloaded)) ∧
    (∀ e, env.openAppend = some e →
      sentStages (handle_resume_download env s0).events = [TaskFinalStage.FailToResumeFile]) ∧
    (∀ e, env.openAppend = none → env.metaLen = Except.error e →
      sentStages (handle_resume_download env s0).events = [TaskFinalStage.FailToResumeFile]) := by
  refine ⟨?_, ?_, ?_, ?_⟩
  · intro len hoa hml hlt
    have hrf : resume_file env s0.downloaded true =
        Except.error (TaskResult.new_file_corrupted
          "File changed or failed to write since last download attempt") := by
      simp [resume_file, hoa, hml, hlt]
    simp only [handle_resume_download, hu, har, reduceIte, hrf]
    exact ⟨(sendUnwrap_obs env.alive _).1, (sendUnwrap_obs env.alive _).2.1,
      (sendUnwrap_obs env.alive _).2.2⟩
  · intro len hoa hml hge hsl
    have hrf : resume_file env s0.downloaded true = Except.ok s0.downloaded := by
      simp [resume_file, hoa, hml, hsl, Nat.not_lt.mpr hge]
    refine ⟨hrf, ?_⟩
    intro n hn
    simp only [handle_resume_download, hu, har, reduceIte, hrf] at hn
    cases hcb : env.clientBuild with
    | error e =>
      simp only [hcb] at hn
      exact absurd hn ((sendUnwrap_obs env.alive _).2.2 n)
    | ok v =>
      simp only [hcb] at hn
      split at hn
      · rename_i gevs e heq
        obtain ⟨rng, hrng⟩ := grds_events env _ _ _
        have hg1 := congrArg Prod.fst heq
        rw [hrng] at hg1
        simp only at hg1
        rw [← hg1] at hn
        cases ha : env.alive <;> simp [ha, sendUnwrap] at hn
      · rename_i gevs s3 hsts heq
        obtain ⟨rng, hrng⟩ := grds_events env _ _ _
        have hg1 := congrArg Prod.fst heq
        rw [hrng] at hg1
        simp only at hg1
        rw [← hg1] at hn
        have hns := (loopShape_stream_only env.alive _
          (downloadStream_shape env.alive env.flushRes env.writes env.cmds env.stream 0 s3)).2 n
        split at hn <;>
        · cases ha : env.alive <;> rw [ha] at hns <;> simp [ha, sendUnwrap, hns] at hn <;>
            try exact hn
  · intro e hoa
    have hrf : resume_file env s0.downloaded true =
        Except.error (TaskResult.new_failed_to_resume_file e) := by
      simp [resume_file, hoa]
    simp only [handle_resume_download, hu, har, reduceIte, hrf]
    exact (sendUnwrap_obs env.alive _).1
  · intro e hoa hml
    have hrf : resume_file env s0.downloaded true =
        Except.error (TaskResult.new_failed_to_resume_file e) := by
      simp [resume_file, hoa, hml]
    simp only [handle_resume_download, hu, har, reduceIte, hrf]
    exact (sendUnwrap_obs env.alive _).1

/-- Witness for resume_file_checks: a resume attempt whose append-open fails
reports FailToResumeFile. -/
theorem resume_file_checks_witness :
    sentStages (handle_resume_download
      ⟨fun _ => Except.error (UrlParseError.other "bad"), fun _ => none, "d", [],
        Except.ok (), Except.error "e", none, none, some "denied", Except.ok 0, none, [],
        fun _ => none, fun _ => TryRecvR.empty, none, true, 0⟩
      ⟨"f", some "u", true, none, 5, 0, 5, none⟩).events =
      [TaskFinalStage.FailToResumeFile] :=
  (resume_file_checks
    ⟨fun _ => Except.error (UrlParseError.other "bad"), fun _ => none, "d", [],
      Except.ok (), Except.error "e", none, none, some "denied", Except.ok 0, none, [],
      fun _ => none, fun _ => TryRecvR.empty, none, true, 0⟩
    ⟨"f", some "u", true, none, 5, 0, 5, none⟩ "u" rfl rfl).2.2.1 "denied" rfl

theorem grds_events_true (env : Env) (s : TaskState) (d : Nat) :
    (get_resume_download_stream env s d true).1 =
      [Ev.request (some ("bytes=" ++ decimalStr d ++ "-"))] := by
  cases hc : env.connect with
  | error e => simp [get_resume_download_stream, hc]
  | ok resp => cases hl : resp.content_length <;> simp [get_resume_download_stream, hc, hl]

/-- Counterexample to claim C4 as stated: with a server-sent Content-Length
of 2 ^ 64 - 1 (the largest value the u64 parse accepts) and a recorded offset
of 1, the u64 addition of resolve.rs line 410 wraps, so the stored
content_length is 0, not the exact unsigned sum 2 ^ 64. -/
theorem resume_content_length_wraps :
    (handle_resume_download
      ⟨fun _ => Except.error (UrlParseError.other "bad"), fun _ => none, "d", [],
        Except.ok (), Except.ok ⟨some (2 ^ 64 - 1), some "bytes", "ru"⟩, none, none,
        none, Except.ok 5, none, [], fun _ => none, fun _ => TryRecvR.empty, none,
        true, 0⟩
      ⟨"f", some "u", true, none, 1, 0, 1, none⟩).state.content_length = some 0 ∧
    (handle_resume_download
      ⟨fun _ => Except.error (UrlParseError.other "bad"), fun _ => none, "d", [],
        Except.ok (), Except.ok ⟨some (2 ^ 64 - 1), some "bytes", "ru"⟩, none, none,
        none, Except.ok 5, none, [], fun _ => none, fun _ => TryRecvR.empty, none,
        true, 0⟩
      ⟨"f", some "u", true, none, 1, 0, 1, none⟩).state.content_length ≠
      some (2 ^ 64 - 1 + 1) := by
  decide

/-- Claim C4 (amended): a range-capable resume attempt that reaches the
request phase sends exactly one request, carrying the header value bytes=d-
for the recorded offset d; when the response carries a parseable
Content-Length n the shared content_length is set to the wrapping u64 sum
(n + d) mod 2 ^ 64 — equal to exactly n + d whenever n + d is below 2 ^ 64 —
and when it carries no parseable Content-Length the shared content_length
keeps its previous value. -/
theorem resume_range_request (env : Env) (s0 : TaskState) (u : String)
    (hu : s0.url = some u) (har : s0.accept_ranges = true)
    (hoa : env.openAppend = none) (len : Nat) (hml : env.metaLen = Except.ok len)
    (hge : s0.downloaded ≤ len) (hsl : env.setLen = none)
    (hcb : env.clientBuild = Except.ok ()) :
    Ev.request (some ("bytes=" ++ decimalStr s0.downloaded ++ "-")) ∈
      (handle_resume_download env s0).events ∧
    (∀ r, Ev.request r ∈ (handle_resume_download env s0).events →
      r = some ("bytes=" ++ decimalStr s0.downloaded ++ "-")) ∧
    (∀ resp, env.connect = Except.ok resp →
      (∀ n, resp.content_length = some n →
        (handle_resume_download env s0).state.content_length =
          some ((n + s0.downloaded) % 2 ^ 64) ∧
        (n + s0.downloaded < 2 ^ 64 →
          (handle_resume_download env s0).state.content_length =
            some (n + s0.downloaded))) ∧
      (resp.content_length = none →
        (handle_resume_download env s0).state.content_length = s0.content_length)) := by
  have hrf : resume_file env s0.downloaded true = Except.ok s0.downloaded := by
    simp [resume_file, hoa, hml, hsl, Nat.not_lt.mpr hge]
  simp only [handle_resume_download, hu, har, reduceIte, hrf, hcb]
  split
  · rename_i gevs e heq
    have hg1 := congrArg Prod.fst heq
    rw [grds_events_true] at hg1
    simp only at hg1
    refine ⟨?_, ?_, ?_⟩
    · rw [← hg1]
      simp
    · intro r hr
      rw [← hg1] at hr
      cases ha : env.alive <;> simp [ha, sendUnwrap] at hr <;> exact hr
    · intro resp hc
      exfalso
      cases hl : resp.content_length <;>
        simp [get_resume_download_stream, reduceIte, hc, hl] at heq
  · rename_i gevs s3 hsts heq
    have hg1 := congrArg Prod.fst heq
    rw [grds_events_true] at hg1
    simp only at hg1
    have hfinal := (downloadStream_states env.alive env.flushRes env.writes env.cmds
      env.stream 0 s3).2.2
    have hnr := (loopShape_stream_only env.alive _
      (downloadStream_shape env.alive env.flushRes env.writes env.cmds env.stream 0 s3)).1
    simp only [attemptOut_ite_states, attemptOut_ite_state]
    refine ⟨?_, ?_, ?_⟩
    · split <;> (rw [← hg1]; simp)
    · intro r hr
      split at hr <;>
      · rw [← hg1] at hr
        cases ha : env.alive <;> rw [ha] at hnr <;>
          simp [ha, sendUnwrap, hnr r] at hr <;> exact hr
    · intro resp hc
      constructor
      · intro n0 hn0
        simp only [get_resume_download_stream, reduceIte, hc, hn0, Prod.mk.injEq,
          Except.ok.injEq] at heq
        obtain ⟨hevs, hs3, hhsts⟩ := heq
        subst hs3
        refine ⟨hfinal.2.2.2.1, ?_⟩
        intro hlt
        rw [hfinal.2.2.2.1]
        show some ((n0 + s0.downloaded) % 2 ^ 64) = some (n0 + s0.downloaded)
        rw [Nat.mod_eq_of_lt hlt]
      · intro hn0
        simp only [get_resume_download_stream, reduceIte, hc, hn0, Prod.mk.injEq,
          Except.ok.injEq] at heq
        obtain ⟨hevs, hs3, hhsts⟩ := heq
        subst hs3
        exact hfinal.2.2.2.1

/-- Witness for resume_range_request at a concrete resume attempt with
offset 3 and response Content-Length 10: the recorded total becomes 13. -/
theorem resume_range_request_witness :
    (handle_resume_download
      ⟨fun _ => Except.error (UrlParseError.other "bad"), fun _ => none, "d", [],
        Except.ok (), Except.ok ⟨some 10, some "bytes", "ru"⟩, none, none, none,
        Except.ok 5, none, [], fun _ => none, fun _ => TryRecvR.empty, none, true, 0⟩
      ⟨"f", some "u", true, none, 3, 0, 3, none⟩).state.content_length = some 13 :=
  (((resume_range_request
    ⟨fun _ => Except.error (UrlParseError.other "bad"), fun _ => none, "d", [],
      Except.ok (), Except.ok ⟨some 10, some "bytes", "ru"⟩, none, none, none,
      Except.ok 5, none, [], fun _ => none, fun _ => TryRecvR.empty, none, true, 0⟩
    ⟨"f", some "u", true, none, 3, 0, 3, none⟩ "u" rfl rfl rfl 5 rfl
    (by decide) rfl rfl).2.2 ⟨some 10, some "bytes", "ru"⟩ rfl).1 10 rfl).2 (by decide)

end RequestTui
